import Mathlib

/-!
Shallow embedding of the To-Do task server (`src/Backend/server.js`).

The repository's `server.js` holds two express/pg server variants.  The
endpoint handlers are embedded here as pure functions: the relational store
is explicit state (lists of rows per table), timestamps and fresh ids are
explicit parameters, and each handler returns a response value together
with the updated store.  The regular expressions used by the handlers are
embedded as decidable predicates over the string's character list.
-/

namespace TodoTask

/-! ### Character classes of the server's regexes -/

def isLowerAZ (c : Char) : Bool := 'a' ≤ c && c ≤ 'z'

def isUpperAZ (c : Char) : Bool := 'A' ≤ c && c ≤ 'Z'

/-- the regex class `[a-zA-Z]` -/
def isLetterAZ (c : Char) : Bool := isLowerAZ c || isUpperAZ c

/-- the regex class `[0-9]` (also `\d`) -/
def isDigit09 (c : Char) : Bool := '0' ≤ c && c ≤ '9'

/-- the regex class `[a-zA-Z0-9]` -/
def isAlnumAZ09 (c : Char) : Bool := isLetterAZ c || isDigit09 c

/-- the regex class `[a-zA-Z0-9._-]` -/
def isLocalMid (c : Char) : Bool := isAlnumAZ09 c || c == '.' || c == '_' || c == '-'

/-! ### Email regex of POST /api/tasks and POST /api/task-history

`/^[a-zA-Z][a-zA-Z0-9._-]*[a-zA-Z0-9]@astrolitetech\.com$/` (server.js
lines 105 and 173).  Since no local-part class contains `@`, the regex
matches a string iff it splits at its first `@` into a local part of shape
`[a-zA-Z][a-zA-Z0-9._-]*[a-zA-Z0-9]` followed by exactly
`@astrolitetech.com`. -/

/-- matches the regex tail `[a-zA-Z0-9._-]*[a-zA-Z0-9]`: a nonempty list
whose last char is alphanumeric and whose other chars are in the middle
class. -/
def localTailMatch : List Char → Bool
  | [] => false
  | [c] => isAlnumAZ09 c
  | c :: c2 :: rest => isLocalMid c && localTailMatch (c2 :: rest)

/-- matches `[a-zA-Z][a-zA-Z0-9._-]*[a-zA-Z0-9]` -/
def localMatch : List Char → Bool
  | [] => false
  | c :: rest => isLetterAZ c && localTailMatch rest

/-- the domain part of the regex, `@astrolitetech.com`, as characters -/
def atDomain : List Char := '@' :: "astrolitetech.com".data

/-- `regex.test(email)` for the server's email regex -/
def emailRegexTest (s : String) : Bool :=
  let loc := s.data.takeWhile (fun c => !(c == '@'))
  let rest := s.data.dropWhile (fun c => !(c == '@'))
  rest == atDomain && localMatch loc

/-! ### Employee-id regexes -/

/-- `/^[ATS]{3}0(?!000)[0-9]{3}$/` of GET /api/employees/:empId
(server.js line 62): exactly seven characters, the first three each one of
`A`/`T`/`S`, then `0`, then three digits that are not literally `000`. -/
def empIdLookupOk (s : String) : Bool :=
  match s.data with
  | [c1, c2, c3, c4, d1, d2, d3] =>
      (c1 == 'A' || c1 == 'T' || c1 == 'S') &&
      (c2 == 'A' || c2 == 'T' || c2 == 'S') &&
      (c3 == 'A' || c3 == 'T' || c3 == 'S') &&
      c4 == '0' &&
      isDigit09 d1 && isDigit09 d2 && isDigit09 d3 &&
      !(d1 == '0' && d2 == '0' && d3 == '0')
  | _ => false

/-- `/^ATS0\d{3}$/` of POST /api/tasks, GET /api/tasks, GET and POST
/api/task-history (server.js lines 84, 109, 148, 177). -/
def empIdCreateOk (s : String) : Bool :=
  match s.data with
  | [c1, c2, c3, c4, d1, d2, d3] =>
      c1 == 'A' && c2 == 'T' && c3 == 'S' && c4 == '0' &&
      isDigit09 d1 && isDigit09 d2 && isDigit09 d3
  | _ => false

/-! ### Content-type sniff of GET /api/task-history/:id/file

server.js lines 212-223: `contentType` starts as octet-stream and all the
magic-number checks sit inside `if (fileBuffer.length > 4)`.  The ASCII
check is `fileBuffer.slice(0, 100).toString().match(/^[\x00-\x7F]*$/)`;
utf-8 decoding maps a byte to a code point ≤ 0x7F iff the byte itself is
≤ 0x7F, so the check holds iff the first min(100, length) bytes are all
≤ 0x7F. -/

def sniffContentType (b : List Nat) : String :=
  if 4 < b.length then
    if b.take 4 = [0x25, 0x50, 0x44, 0x46] then "application/pdf"
    else if b.take 4 = [0x89, 0x50, 0x4E, 0x47] then "image/png"
    else if b.take 3 = [0xFF, 0xD8, 0xFF] then "image/jpeg"
    else if (b.take 100).all (fun x => decide (x ≤ 0x7F)) then "text/plain"
    else "application/octet-stream"
  else "application/octet-stream"

/-- The five-step first-match algorithm exactly as the spec words it: only
step 1 (PDF) is guarded by `length > 4`; steps 2-4 apply to sequences of
any length. -/
def sniffSpecAlgorithm (b : List Nat) : String :=
  if 4 < b.length ∧ b.take 4 = [0x25, 0x50, 0x44, 0x46] then "application/pdf"
  else if b.take 4 = [0x89, 0x50, 0x4E, 0x47] then "image/png"
  else if b.take 3 = [0xFF, 0xD8, 0xFF] then "image/jpeg"
  else if (b.take 100).all (fun x => decide (x ≤ 0x7F)) then "text/plain"
  else "application/octet-stream"

/-! ### JSON values and JS truthiness

POST /api/tasks reads `status` straight from the JSON body and inserts
`status || 'assigned'`, so the relevant semantics is JS truthiness of the
JSON value. -/

inductive JsVal
  | undef
  | null
  | str (s : String)
  | num (n : Int)
  | bool (b : Bool)
deriving DecidableEq

/-- JS truthiness: `undefined`, `null`, `''`, `0` and `false` are falsy. -/
def JsVal.truthy : JsVal → Bool
  | .undef => false
  | .null => false
  | .str s => !s.isEmpty
  | .num n => n != 0
  | .bool b => b

/-- how the pg driver renders a (truthy) JSON value into a text column -/
def JsVal.pgText : JsVal → String
  | .undef => ""
  | .null => ""
  | .str s => s
  | .num n => toString n
  | .bool b => if b then "true" else "false"

/-! ### Rows of the three tables (variant-1 schema, server.js 272-304) -/

structure EmployeeRow where
  emp_id : String
  name : String
  email : String
  department : String
deriving DecidableEq

structure TaskRow where
  id : String
  task_name : String
  employee_name : String
  employee_id : String
  email : String
  task_description : String
  allocated_date : String
  deadline : String
  status : String
  created_at : Nat
deriving DecidableEq

structure HistoryRow where
  id : Nat
  task_name : String
  employee_name : String
  employee_id : String
  email : String
  description : String
  upload_doc : Option (List Nat)
  task_status : String
  allocated_time : Nat
deriving DecidableEq

/-- the columns RETURNED by POST /api/task-history and listed by
GET /api/task-history: everything but the blob, plus the derived
`upload_doc IS NOT NULL AS has_file`. -/
structure HistoryMeta where
  id : Nat
  task_name : String
  employee_name : String
  employee_id : String
  email : String
  description : String
  task_status : String
  allocated_time : Nat
  has_file : Bool
deriving DecidableEq

def HistoryRow.meta (r : HistoryRow) : HistoryMeta :=
  { id := r.id, task_name := r.task_name, employee_name := r.employee_name,
    employee_id := r.employee_id, email := r.email, description := r.description,
    task_status := r.task_status, allocated_time := r.allocated_time,
    has_file := r.upload_doc.isSome }

/-! ### GET /api/employees/:empId (server.js 59-75) -/

inductive EmployeeResp
  | badRequest (msg : String)
  | notFound
  | ok (row : EmployeeRow)
deriving DecidableEq

def getEmployee (db : List EmployeeRow) (empId : String) : EmployeeResp :=
  if !empIdLookupOk empId then .badRequest "Invalid employee ID format"
  else
    match db.find? (fun r => r.emp_id == empId) with
    | none => .notFound
    | some r => .ok r

/-! ### POST /api/tasks (server.js 99-124)

The JSON body's seven required fields are modelled as strings (an absent
field and an empty string are both falsy, which is all the handler tests);
`status` keeps its JSON value because the handler applies `||` to it.
`nowMs` is `Date.now()` and `serverTime` the store's `CURRENT_TIMESTAMP`;
an insert whose primary key `id` already exists fails, which the handler
turns into a 500. -/

structure TaskPayload where
  taskName : String
  employeeName : String
  employeeId : String
  email : String
  taskDescription : String
  allocatedDate : String
  deadline : String
  status : JsVal
deriving DecidableEq

inductive TasksPostResp
  | badRequest (msg : String)
  | ok (row : TaskRow)
  | serverError (msg : String)
deriving DecidableEq

structure TasksPostOut where
  resp : TasksPostResp
  db : List TaskRow
deriving DecidableEq

/-- the row the INSERT of POST /api/tasks writes: `id` is
`Date.now().toString()`, `status` is `status || 'assigned'`, `created_at`
is the store's `CURRENT_TIMESTAMP`. -/
def newTaskRow (p : TaskPayload) (nowMs serverTime : Nat) : TaskRow :=
  { id := toString nowMs, task_name := p.taskName, employee_name := p.employeeName,
    employee_id := p.employeeId, email := p.email,
    task_description := p.taskDescription, allocated_date := p.allocatedDate,
    deadline := p.deadline,
    status := if p.status.truthy then p.status.pgText else "assigned",
    created_at := serverTime }

def postTask (db : List TaskRow) (p : TaskPayload) (nowMs serverTime : Nat) :
    TasksPostOut :=
  if p.taskName.isEmpty || p.employeeName.isEmpty || p.employeeId.isEmpty ||
      p.email.isEmpty || p.taskDescription.isEmpty || p.allocatedDate.isEmpty ||
      p.deadline.isEmpty then
    ⟨.badRequest "All fields are required", db⟩
  else if !emailRegexTest p.email then
    ⟨.badRequest "Invalid email format. Must be name@astrolitetech.com", db⟩
  else if !empIdCreateOk p.employeeId then
    ⟨.badRequest "Invalid employee ID format", db⟩
  else if db.any (fun r => r.id == toString nowMs) then
    ⟨.serverError "Failed to save task", db⟩
  else
    ⟨.ok (newTaskRow p nowMs serverTime), db ++ [newTaskRow p nowMs serverTime]⟩

/-! ### GET /api/tasks/:id (server.js 127-139) -/

def getTaskById (db : List TaskRow) (id : String) : Option TaskRow :=
  db.find? (fun r => r.id == id)

/-! ### GET /api/tasks (server.js 78-96)

`ORDER BY created_at DESC` is modelled as a sort of the rows by
`created_at` descending (the relative order of equal keys is unspecified
in SQL; the theorems only use that the result is a sorted permutation). -/

def createdDesc (a b : TaskRow) : Prop := b.created_at ≤ a.created_at

instance : DecidableRel createdDesc := fun a b => Nat.decLe b.created_at a.created_at

def listTasksSorted (db : List TaskRow) : List TaskRow :=
  db.insertionSort createdDesc

inductive ListResp (α : Type)
  | ok (rows : List α)
  | badRequest (msg : String)
deriving DecidableEq

/-- `employeeId` is `req.query.employeeId`: `none` when absent, and the
handler's `if (employeeId)` is JS truthiness, so an empty-string value
takes the unfiltered branch too. -/
def getTasksList (db : List TaskRow) (employeeId : Option String) :
    ListResp TaskRow :=
  let eid := employeeId.getD ""
  if eid.isEmpty then .ok (listTasksSorted db)
  else if !empIdCreateOk eid then .badRequest "Invalid employee ID format"
  else .ok (listTasksSorted (db.filter (fun r => r.employee_id == eid)))

/-! ### POST /api/task-history (server.js 163-199)

`nextId` is the SERIAL value the store assigns to the inserted row. -/

structure HistoryPayload where
  taskName : String
  employeeName : String
  employeeId : String
  email : String
  description : String
  taskStatus : String
deriving DecidableEq

inductive HistPostResp
  | badRequest (msg : String)
  | ok (data : HistoryMeta)
deriving DecidableEq

structure HistPostOut where
  resp : HistPostResp
  db : List HistoryRow
deriving DecidableEq

/-- the row the INSERT of POST /api/task-history writes: `id` is the
SERIAL value the store assigns, `allocated_time` is `CURRENT_TIMESTAMP`. -/
def newHistoryRow (p : HistoryPayload) (file : Option (List Nat))
    (nextId serverTime : Nat) : HistoryRow :=
  { id := nextId, task_name := p.taskName, employee_name := p.employeeName,
    employee_id := p.employeeId, email := p.email, description := p.description,
    upload_doc := file, task_status := p.taskStatus,
    allocated_time := serverTime }

def postHistory (db : List HistoryRow) (p : HistoryPayload)
    (file : Option (List Nat)) (nextId serverTime : Nat) : HistPostOut :=
  if p.taskName.isEmpty || p.employeeName.isEmpty || p.employeeId.isEmpty ||
      p.email.isEmpty || p.description.isEmpty || p.taskStatus.isEmpty then
    ⟨.badRequest "All fields are required", db⟩
  else if !emailRegexTest p.email then
    ⟨.badRequest "Invalid email format", db⟩
  else if !empIdCreateOk p.employeeId then
    ⟨.badRequest "Invalid employee ID format", db⟩
  else
    ⟨.ok (newHistoryRow p file nextId serverTime).meta,
      db ++ [newHistoryRow p file nextId serverTime]⟩

/-! ### GET /api/task-history/:id/file (server.js 202-234)

404 when no row matches or `!result.rows[0].upload_doc`; a pg BYTEA value
is a Buffer (truthy even when empty) or null, so the second disjunct is
exactly `upload_doc` NULL. -/

inductive FileResp
  | notFound
  | ok (bytes : List Nat) (contentType : String)
deriving DecidableEq

def getHistoryFile (db : List HistoryRow) (id : Nat) : FileResp :=
  match db.find? (fun r => r.id == id) with
  | none => .notFound
  | some r =>
    match r.upload_doc with
    | none => .notFound
    | some buf => .ok buf (sniffContentType buf)

/-! ### Schema initialization (variant 1: server.js 272-304, variant 2:
server.js 386-412)

A store is three optional tables: `none` is an absent table, `some rows` a
present one.  `CREATE TABLE IF NOT EXISTS` creates an empty table only
when absent; `drop table if exists` removes the table. -/

structure DbState where
  employees : Option (List EmployeeRow)
  tasks : Option (List TaskRow)
  task_history : Option (List HistoryRow)
deriving DecidableEq

def createTableIfNotExists {α : Type} (t : Option (List α)) : Option (List α) :=
  some (t.getD [])

def dropTableIfExists {α : Type} (_ : Option (List α)) : Option (List α) :=
  none

/-- variant 1's statement batch: three `CREATE TABLE IF NOT EXISTS`. -/
def initializeSchemaV1 (db : DbState) : DbState :=
  { employees := createTableIfNotExists db.employees,
    tasks := createTableIfNotExists db.tasks,
    task_history := createTableIfNotExists db.task_history }

/-- variant 2's statement batch: `drop table if exists tasks; drop table if
exists task_history;` then `CREATE TABLE IF NOT EXISTS` for both (no
employees table in this variant). -/
def initializeSchemaV2 (db : DbState) : DbState :=
  let db1 : DbState := { db with tasks := dropTableIfExists db.tasks }
  let db2 : DbState := { db1 with task_history := dropTableIfExists db1.task_history }
  let db3 : DbState := { db2 with tasks := createTableIfNotExists db2.tasks }
  { db3 with task_history := createTableIfNotExists db3.task_history }

/-- all three variant-1 tables exist -/
def DbState.initializedV1 (db : DbState) : Prop :=
  db.employees.isSome ∧ db.tasks.isSome ∧ db.task_history.isSome

/-! ### Startup retry loop (variant 1: server.js 269-330)

`initializeDatabase(retries = 5, delay = 5000)` loops `attempt` from 1 to
`retries`; a failed attempt below `retries` waits `delay` ms and retries,
a failed last attempt throws; `startServer` listens after success and
calls `process.exit(1)` on the thrown error.  The environment is abstracted
as `fails : Nat → Bool` telling whether the query batch of a given attempt
number fails; the observable behaviour is the event trace. -/

inductive Ev
  | attempt (n : Nat)
  | wait (ms : Nat)
  | listen
  | exitNonZero
deriving DecidableEq

inductive InitResult
  | ok
  | failed
deriving DecidableEq

/-- the loop body, with `k` attempts (numbered from `attempt`) remaining -/
def initLoop (fails : Nat → Bool) (delay : Nat) : Nat → Nat → List Ev × InitResult
  | _, 0 => ([], .failed)
  | attempt, Nat.succ k =>
    if fails attempt then
      if k == 0 then ([Ev.attempt attempt], .failed)
      else
        let r := initLoop fails delay (attempt + 1) k
        (Ev.attempt attempt :: Ev.wait delay :: r.1, r.2)
    else ([Ev.attempt attempt], .ok)

def initializeDatabase (fails : Nat → Bool) : List Ev × InitResult :=
  initLoop fails 5000 1 5

def startServer (fails : Nat → Bool) : List Ev :=
  match initializeDatabase fails with
  | (evs, .ok) => evs ++ [Ev.listen]
  | (evs, .failed) => evs ++ [Ev.exitNonZero]

/-! ### Spec-side predicates and sample data used by the theorems -/

/-- Modelled from the claim's reading of the lookup regex: seven
characters, any of `A`/`T`/`S` in each of the first three positions, then
`0`, then three digits that are not literally `000`. -/
def empIdLookupSpec (s : String) : Prop :=
  ∃ c1 c2 c3 d1 d2 d3 : Char,
    s.data = [c1, c2, c3, '0', d1, d2, d3] ∧
    (c1 = 'A' ∨ c1 = 'T' ∨ c1 = 'S') ∧
    (c2 = 'A' ∨ c2 = 'T' ∨ c2 = 'S') ∧
    (c3 = 'A' ∨ c3 = 'T' ∨ c3 = 'S') ∧
    isDigit09 d1 = true ∧ isDigit09 d2 = true ∧ isDigit09 d3 = true ∧
    ¬(d1 = '0' ∧ d2 = '0' ∧ d3 = '0')

/-- Modelled from the claim's reading of the creation regex: the literal
prefix `ATS0` followed by three digits. -/
def empIdCreateSpec (s : String) : Prop :=
  ∃ d1 d2 d3 : Char,
    s.data = ['A', 'T', 'S', '0', d1, d2, d3] ∧
    isDigit09 d1 = true ∧ isDigit09 d2 = true ∧ isDigit09 d3 = true

/-- a concrete stored task row -/
def sampleTaskRow : TaskRow :=
  { id := "1700000000000", task_name := "Prepare report", employee_name := "Ajay",
    employee_id := "ATS0123", email := "ajay@astrolitetech.com",
    task_description := "Quarterly report", allocated_date := "2025-01-01",
    deadline := "2025-01-31", status := "assigned", created_at := 100 }

/-- an already-initialized store holding one task row -/
def sampleDbWithTask : DbState :=
  { employees := some [], tasks := some [sampleTaskRow], task_history := some [] }

/-- a valid POST /api/tasks body -/
def samplePayload : TaskPayload :=
  { taskName := "Prepare report", employeeName := "Ajay", employeeId := "ATS0123",
    email := "ajay@astrolitetech.com", taskDescription := "Quarterly report",
    allocatedDate := "2025-01-01", deadline := "2025-01-31",
    status := JsVal.str "in-progress" }

/-- a syntactically valid POST /api/tasks body whose employee id is the
boundary string ATS0000 -/
def samplePayloadATS0000 : TaskPayload :=
  { taskName := "Prepare report", employeeName := "Ajay", employeeId := "ATS0000",
    email := "ajay@astrolitetech.com", taskDescription := "Quarterly report",
    allocatedDate := "2025-01-01", deadline := "2025-01-31",
    status := JsVal.str "assigned" }

instance : IsTotal TaskRow createdDesc :=
  ⟨fun a b => Nat.le_total b.created_at a.created_at⟩

instance : IsTrans TaskRow createdDesc :=
  ⟨fun _ _ _ hab hbc => Nat.le_trans hbc hab⟩

/-! ### Helper lemmas -/

theorem localTailMatch_iff (l : List Char) :
    localTailMatch l = true ↔
      ∃ mid c, l = mid ++ [c] ∧ (∀ x ∈ mid, isLocalMid x = true) ∧
        isAlnumAZ09 c = true := by
  induction l with
  | nil => simp [localTailMatch]
  | cons a t ih =>
    cases t with
    | nil =>
      constructor
      · intro h
        exact ⟨[], a, rfl, by simp, h⟩
      · rintro ⟨mid, c, heq, hmid, hc⟩
        rcases mid with _ | ⟨m, ms⟩
        · simp at heq
          subst heq
          exact hc
        · simp [List.cons_eq_cons] at heq
    | cons b t2 =>
      rw [show localTailMatch (a :: b :: t2) = (isLocalMid a && localTailMatch (b :: t2)) from rfl]
      constructor
      · intro h
        rw [Bool.and_eq_true] at h
        obtain ⟨h1, h2⟩ := h
        obtain ⟨mid, c, heq, hmid, hc⟩ := ih.mp h2
        refine ⟨a :: mid, c, by rw [heq]; rfl, ?_, hc⟩
        intro x hx
        rcases List.mem_cons.mp hx with rfl | hx2
        · exact h1
        · exact hmid x hx2
      · rintro ⟨mid, c, heq, hmid, hc⟩
        rcases mid with _ | ⟨m, ms⟩
        · simp [List.cons_eq_cons] at heq
        · rw [List.cons_append, List.cons_eq_cons] at heq
          obtain ⟨rfl, heq2⟩ := heq
          have h1 : isLocalMid a = true := hmid a (by simp)
          have h2 : localTailMatch (b :: t2) = true :=
            ih.mpr ⟨ms, c, heq2, fun x hx => hmid x (by simp [hx]), hc⟩
          rw [Bool.and_eq_true]
          exact ⟨h1, h2⟩

theorem isLetterAZ_ne_at {c : Char} (h : isLetterAZ c = true) : (c == '@') = false := by
  rcases eq_or_ne c '@' with rfl | hne
  · exact absurd h (by decide)
  · simp [hne]

theorem isAlnumAZ09_ne_at {c : Char} (h : isAlnumAZ09 c = true) : (c == '@') = false := by
  rcases eq_or_ne c '@' with rfl | hne
  · exact absurd h (by decide)
  · simp [hne]

theorem isLocalMid_ne_at {c : Char} (h : isLocalMid c = true) : (c == '@') = false := by
  rcases eq_or_ne c '@' with rfl | hne
  · exact absurd h (by decide)
  · simp [hne]

theorem takeWhile_all_append (p : Char → Bool) (l r : List Char) (x : Char)
    (hl : ∀ a ∈ l, p a = true) (hx : p x = false) :
    (l ++ x :: r).takeWhile p = l ∧ (l ++ x :: r).dropWhile p = x :: r := by
  induction l with
  | nil => simp [List.takeWhile_cons, List.dropWhile_cons, hx]
  | cons a t ih =>
    have ha : p a = true := hl a (by simp)
    have ht : ∀ b ∈ t, p b = true := fun b hb => hl b (by simp [hb])
    obtain ⟨h1, h2⟩ := ih ht
    simp [List.takeWhile_cons, List.dropWhile_cons, ha, h1, h2]

theorem emailRegexTest_iff (s : String) :
    emailRegexTest s = true ↔
      ∃ c0 mid c1, s.data = (c0 :: (mid ++ [c1])) ++ atDomain ∧
        isLetterAZ c0 = true ∧ (∀ x ∈ mid, isLocalMid x = true) ∧
        isAlnumAZ09 c1 = true := by
  constructor
  · intro h
    unfold emailRegexTest at h
    rw [Bool.and_eq_true] at h
    obtain ⟨h1, h2⟩ := h
    have hsplit : s.data.takeWhile (fun c => !(c == '@')) ++
        s.data.dropWhile (fun c => !(c == '@')) = s.data :=
      List.takeWhile_append_dropWhile _ _
    have hdom : s.data.dropWhile (fun c => !(c == '@')) = atDomain := by
      simpa using h1
    rcases hl : s.data.takeWhile (fun c => !(c == '@')) with _ | ⟨c0, tail⟩
    · rw [hl] at h2
      simp [localMatch] at h2
    · rw [hl] at h2
      rw [show localMatch (c0 :: tail) = (isLetterAZ c0 && localTailMatch tail) from rfl] at h2
      rw [Bool.and_eq_true] at h2
      obtain ⟨hc0, htail⟩ := h2
      obtain ⟨mid, c1, rfl, hmid, hc1⟩ := (localTailMatch_iff tail).mp htail
      refine ⟨c0, mid, c1, ?_, hc0, hmid, hc1⟩
      rw [← hsplit, hl, hdom]
  · rintro ⟨c0, mid, c1, hdata, hc0, hmid, hc1⟩
    have hall : ∀ a ∈ c0 :: (mid ++ [c1]), (fun c => !(c == '@')) a = true := by
      intro a ha
      simp only [List.mem_cons, List.mem_append, List.mem_singleton,
        List.not_mem_nil, or_false] at ha
      rcases ha with rfl | ha | rfl
      · simp [isLetterAZ_ne_at hc0]
      · simp [isLocalMid_ne_at (hmid a ha)]
      · simp [isAlnumAZ09_ne_at hc1]
    have hta := takeWhile_all_append (fun c => !(c == '@')) (c0 :: (mid ++ [c1]))
      ("astrolitetech.com".data) '@' hall (by decide)
    have hloc : localMatch (c0 :: (mid ++ [c1])) = true := by
      rw [show localMatch (c0 :: (mid ++ [c1])) =
            (isLetterAZ c0 && localTailMatch (mid ++ [c1])) from rfl]
      rw [Bool.and_eq_true]
      exact ⟨hc0, (localTailMatch_iff _).mpr ⟨mid, c1, rfl, hmid, hc1⟩⟩
    unfold emailRegexTest
    rw [hdata]
    rw [show ((c0 :: (mid ++ [c1])) ++ atDomain) =
          ((c0 :: (mid ++ [c1])) ++ '@' :: "astrolitetech.com".data) from rfl]
    rw [hta.1, hta.2]
    simp [atDomain, hloc]

set_option maxHeartbeats 1000000 in
theorem empIdLookupOk_iff (s : String) : empIdLookupOk s = true ↔ empIdLookupSpec s := by
  obtain ⟨l⟩ := s
  rcases l with _ | ⟨a1, _ | ⟨a2, _ | ⟨a3, _ | ⟨a4, _ | ⟨a5, _ | ⟨a6, _ | ⟨a7, _ | ⟨a8, t⟩⟩⟩⟩⟩⟩⟩⟩ <;>
    simp [empIdLookupOk, empIdLookupSpec, and_assoc]
  tauto

theorem empIdCreateOk_iff (s : String) : empIdCreateOk s = true ↔ empIdCreateSpec s := by
  obtain ⟨l⟩ := s
  rcases l with _ | ⟨a1, _ | ⟨a2, _ | ⟨a3, _ | ⟨a4, _ | ⟨a5, _ | ⟨a6, _ | ⟨a7, _ | ⟨a8, t⟩⟩⟩⟩⟩⟩⟩⟩ <;>
    simp [empIdCreateOk, empIdCreateSpec, and_assoc]

theorem initLoop_events (fails : Nat → Bool) (delay : Nat) :
    ∀ k a e, e ∈ (initLoop fails delay a k).1 → (∃ n, e = Ev.attempt n) ∨ e = Ev.wait delay := by
  intro k
  induction k with
  | zero => intro a e he; simp [initLoop] at he
  | succ k ih =>
    intro a e he
    by_cases hf : fails a
    · by_cases hk : k = 0
      · subst hk
        simp [initLoop, hf] at he
        exact Or.inl ⟨a, he⟩
      · simp [initLoop, hf, hk] at he
        rcases he with rfl | rfl | he
        · exact Or.inl ⟨a, rfl⟩
        · exact Or.inr rfl
        · exact ih (a + 1) e he
    · simp [initLoop, hf] at he
      exact Or.inl ⟨a, he⟩

theorem initLoop_ok_exists (fails : Nat → Bool) (delay : Nat) :
    ∀ k a, (initLoop fails delay a k).2 = InitResult.ok →
      ∃ i, a ≤ i ∧ i < a + k ∧ fails i = false := by
  intro k
  induction k with
  | zero => intro a h; simp [initLoop] at h
  | succ k ih =>
    intro a h
    by_cases hf : fails a
    · by_cases hk : k = 0
      · subst hk; simp [initLoop, hf] at h
      · simp [initLoop, hf, hk] at h
        obtain ⟨i, h1, h2, h3⟩ := ih (a + 1) h
        exact ⟨i, by omega, by omega, h3⟩
    · exact ⟨a, Nat.le_refl a, by omega, by simpa using hf⟩

theorem initLoop_all_fail (fails : Nat → Bool) (delay : Nat) :
    ∀ k a, (∀ i, fails i = true) →
      (initLoop fails delay a k).2 = InitResult.failed := by
  intro k
  induction k with
  | zero => intro a _; simp [initLoop]
  | succ k ih =>
    intro a h
    by_cases hk : k = 0
    · subst hk; simp [initLoop, h a]
    · simp [initLoop, h a, hk]
      exact ih (a + 1) h

theorem startServer_shape (fails : Nat → Bool) :
    startServer fails =
      (initLoop fails 5000 1 5).1 ++
        [if (initLoop fails 5000 1 5).2 = InitResult.ok then Ev.listen
         else Ev.exitNonZero] := by
  unfold startServer initializeDatabase
  rcases h : initLoop fails 5000 1 5 with ⟨evs, r⟩
  cases r <;> simp

theorem postTask_success_shape (db : List TaskRow) (p : TaskPayload)
    (nowMs serverTime : Nat)
    (hreq : (p.taskName.isEmpty || p.employeeName.isEmpty || p.employeeId.isEmpty ||
      p.email.isEmpty || p.taskDescription.isEmpty || p.allocatedDate.isEmpty ||
      p.deadline.isEmpty) = false)
    (hemail : emailRegexTest p.email = true)
    (hid : empIdCreateOk p.employeeId = true)
    (hfresh : ∀ r ∈ db, (r.id == toString nowMs) = false) :
    postTask db p nowMs serverTime =
      ⟨TasksPostResp.ok (newTaskRow p nowMs serverTime),
        db ++ [newTaskRow p nowMs serverTime]⟩ := by
  have hany : db.any (fun r => r.id == toString nowMs) = false := by
    rw [List.any_eq_false]
    intro x hx
    simp [hfresh x hx]
  unfold postTask
  simp [hreq, hemail, hid, hany]

theorem find_appended_task (db : List TaskRow) (row : TaskRow)
    (hfresh : ∀ r ∈ db, (r.id == row.id) = false) :
    getTaskById (db ++ [row]) row.id = some row := by
  unfold getTaskById
  rw [List.find?_append]
  have hnone : db.find? (fun r => r.id == row.id) = none := by
    rw [List.find?_eq_none]
    intro x hx
    simp [hfresh x hx]
  rw [hnone]
  simp [List.find?]

theorem postHistory_success_shape (db : List HistoryRow) (q : HistoryPayload)
    (file : Option (List Nat)) (nextId serverTime : Nat)
    (hreq : (q.taskName.isEmpty || q.employeeName.isEmpty || q.employeeId.isEmpty ||
      q.email.isEmpty || q.description.isEmpty || q.taskStatus.isEmpty) = false)
    (hemail : emailRegexTest q.email = true)
    (hid : empIdCreateOk q.employeeId = true) :
    postHistory db q file nextId serverTime =
      ⟨HistPostResp.ok (newHistoryRow q file nextId serverTime).meta,
        db ++ [newHistoryRow q file nextId serverTime]⟩ := by
  unfold postHistory
  simp [hreq, hemail, hid]

/-! ### The claims -/

/-- Claim C1, counterexample: the claim's five-step algorithm labels an
all-ASCII 3-byte blob text/plain and the bare JPEG prefix image/jpeg, but
the handler's sniff returns application/octet-stream for both, because all
of its checks sit inside `length > 4`. -/
theorem sniff_short_ascii_counterexample :
    sniffContentType [65, 66, 67] = "application/octet-stream" ∧
    sniffSpecAlgorithm [65, 66, 67] = "text/plain" ∧
    sniffContentType [0xFF, 0xD8, 0xFF] = "application/octet-stream" ∧
    sniffSpecAlgorithm [0xFF, 0xD8, 0xFF] = "image/jpeg" :=
  ⟨rfl, rfl, rfl, rfl⟩

/-- Claim C1, amended: the sniff of GET /api/task-history/:id/file agrees
with the spec's five-step first-match algorithm on every byte sequence of
length > 4, and labels every sequence of length at most 4 (whatever its
bytes) application/octet-stream. -/
theorem sniff_length_guard (b : List Nat) :
    sniffContentType b =
      if 4 < b.length then sniffSpecAlgorithm b else "application/octet-stream" := by
  by_cases h : 4 < b.length <;> simp [sniffContentType, sniffSpecAlgorithm, h]

/-- Claim C2, counterexample: the claim says every local part that starts
and ends alphanumeric is accepted, in particular a@astrolitetech.com; the
server's regex rejects it (the local part needs at least two characters)
and also rejects 9a@astrolitetech.com (the first character must be a
letter, not a digit). -/
theorem email_single_char_local_counterexample :
    emailRegexTest "a@astrolitetech.com" = false ∧
    emailRegexTest "9a@astrolitetech.com" = false :=
  ⟨by decide, by decide⟩

/-- Claim C2, amended: the email validator accepts a string iff it is a
local part followed by exactly @astrolitetech.com, where the local part
has at least two characters, starts with a letter, ends with an
alphanumeric and has only alphanumerics and dot, underscore, hyphen in
between; a.b-c_9@astrolitetech.com and ab@astrolitetech.com are accepted,
a@astrolitetech.com, .abc@astrolitetech.com and abc@other.com rejected. -/
theorem email_regex_characterization :
    (∀ s : String, emailRegexTest s = true ↔
      ∃ c0 mid c1, s.data = (c0 :: (mid ++ [c1])) ++ atDomain ∧
        isLetterAZ c0 = true ∧ (∀ x ∈ mid, isLocalMid x = true) ∧
        isAlnumAZ09 c1 = true) ∧
    emailRegexTest "a@astrolitetech.com" = false ∧
    emailRegexTest "ab@astrolitetech.com" = true ∧
    emailRegexTest "a.b-c_9@astrolitetech.com" = true ∧
    emailRegexTest ".abc@astrolitetech.com" = false ∧
    emailRegexTest "abc@other.com" = false :=
  ⟨emailRegexTest_iff, by decide, by decide, by decide, by decide, by decide⟩

/-- Claim C3: the two employee-id predicates are exactly the two regexes
the claim describes, and they differ at the boundary string ATS0000: the
employee-lookup endpoint rejects it with the invalid-format 400 while the
creation and listing endpoints accept it. -/
theorem empid_two_predicates :
    (∀ s, empIdLookupOk s = true ↔ empIdLookupSpec s) ∧
    (∀ s, empIdCreateOk s = true ↔ empIdCreateSpec s) ∧
    empIdLookupOk "ATS0000" = false ∧
    empIdCreateOk "ATS0000" = true ∧
    (∀ db, getEmployee db "ATS0000" = EmployeeResp.badRequest "Invalid employee ID format") ∧
    (∃ row, (postTask [] samplePayloadATS0000 1700000000000 42).resp = TasksPostResp.ok row ∧
      row.employee_id = "ATS0000") ∧
    getTasksList [sampleTaskRow] (some "ATS0000") = ListResp.ok [] := by
  refine ⟨empIdLookupOk_iff, empIdCreateOk_iff, by decide, by decide, ?_, ?_, ?_⟩
  · intro db
    have h : empIdLookupOk "ATS0000" = false := by decide
    simp [getEmployee, h]
  · exact ⟨_, rfl, rfl⟩
  · rfl

/-- Claim C4, counterexample: variant 2's initializer, run against an
already-initialized store holding one task row, keeps no error channel but
empties the tasks table, so the store is changed and the row lost. -/
theorem initializeSchemaV2_drops_rows_counterexample :
    sampleDbWithTask.initializedV1 ∧
    sampleDbWithTask.tasks = some [sampleTaskRow] ∧
    (initializeSchemaV2 sampleDbWithTask).tasks = some [] ∧
    initializeSchemaV2 sampleDbWithTask ≠ sampleDbWithTask := by
  refine ⟨⟨rfl, rfl, rfl⟩, rfl, rfl, ?_⟩
  decide

/-- Claim C4, amended: variant 1's initializer (three CREATE TABLE IF NOT
EXISTS statements) is idempotent: on any store whose three tables already
exist it is the identity, leaving every existing row unchanged. -/
theorem initializeSchemaV1_idempotent (db : DbState) (h : db.initializedV1) :
    initializeSchemaV1 db = db := by
  obtain ⟨e, t, th⟩ := db
  obtain ⟨he, ht, hth⟩ := h
  obtain ⟨le, rfl⟩ := Option.isSome_iff_exists.mp he
  obtain ⟨lt, rfl⟩ := Option.isSome_iff_exists.mp ht
  obtain ⟨lth, rfl⟩ := Option.isSome_iff_exists.mp hth
  rfl

/-- Claim C4, witness: the variant-1 initializer leaves a concrete
initialized store with one task row exactly as it is. -/
theorem initializeSchemaV1_idempotent_witness :
    initializeSchemaV1 sampleDbWithTask = sampleDbWithTask :=
  initializeSchemaV1_idempotent sampleDbWithTask ⟨rfl, rfl, rfl⟩

/-- Claim C5: when every attempt's query batch fails, startup runs exactly
five attempts separated by 5000 ms waits and ends in a non-zero exit with
no listen event; a listen event can only arise from a successful attempt
among the first five; and a single run never both listens and exits. -/
theorem startServer_retry_spec (fails : Nat → Bool) :
    ((∀ i, fails i = true) →
      startServer fails =
        [Ev.attempt 1, Ev.wait 5000, Ev.attempt 2, Ev.wait 5000, Ev.attempt 3,
         Ev.wait 5000, Ev.attempt 4, Ev.wait 5000, Ev.attempt 5, Ev.exitNonZero]) ∧
    (Ev.listen ∈ startServer fails → ∃ i, 1 ≤ i ∧ i ≤ 5 ∧ fails i = false) ∧
    (Ev.listen ∈ startServer fails → Ev.exitNonZero ∉ startServer fails) ∧
    (Ev.exitNonZero ∈ startServer fails → Ev.listen ∉ startServer fails) := by
  have hnol : Ev.listen ∉ (initLoop fails 5000 1 5).1 := by
    intro hm
    rcases initLoop_events fails 5000 5 1 Ev.listen hm with ⟨n, hn⟩ | hn <;> simp at hn
  have hnoe : Ev.exitNonZero ∉ (initLoop fails 5000 1 5).1 := by
    intro hm
    rcases initLoop_events fails 5000 5 1 Ev.exitNonZero hm with ⟨n, hn⟩ | hn <;> simp at hn
  refine ⟨?_, ?_, ?_, ?_⟩
  · intro h
    rw [startServer_shape]
    have hfail := initLoop_all_fail fails 5000 5 1 h
    simp [initLoop, h, hfail]
  · intro hm
    rw [startServer_shape] at hm
    rcases List.mem_append.mp hm with hm1 | hm2
    · exact absurd hm1 hnol
    · by_cases hok : (initLoop fails 5000 1 5).2 = InitResult.ok
      · obtain ⟨i, h1, h2, h3⟩ := initLoop_ok_exists fails 5000 5 1 hok
        exact ⟨i, h1, by omega, h3⟩
      · simp [hok] at hm2
  · intro hm hm2
    rw [startServer_shape] at hm hm2
    rcases List.mem_append.mp hm with h1 | h1
    · exact hnol h1
    · rcases List.mem_append.mp hm2 with h2 | h2
      · exact hnoe h2
      · by_cases hok : (initLoop fails 5000 1 5).2 = InitResult.ok <;>
          simp [hok] at h1 h2
  · intro hm hm2
    rw [startServer_shape] at hm hm2
    rcases List.mem_append.mp hm2 with h1 | h1
    · exact hnol h1
    · rcases List.mem_append.mp hm with h2 | h2
      · exact hnoe h2
      · by_cases hok : (initLoop fails 5000 1 5).2 = InitResult.ok <;>
          simp [hok] at h1 h2

/-- Claim C6: creating a task from a payload that passes the three
validations (with a fresh id) succeeds, and fetching the returned row's id
finds exactly that row, whose seven submitted fields equal the payload's,
whose created_at is the server-assigned timestamp, and whose status
defaults to assigned when the payload's status is falsy. -/
theorem task_roundtrip (db : List TaskRow) (p : TaskPayload) (nowMs serverTime : Nat)
    (hreq : (p.taskName.isEmpty || p.employeeName.isEmpty || p.employeeId.isEmpty ||
      p.email.isEmpty || p.taskDescription.isEmpty || p.allocatedDate.isEmpty ||
      p.deadline.isEmpty) = false)
    (hemail : emailRegexTest p.email = true)
    (hid : empIdCreateOk p.employeeId = true)
    (hfresh : ∀ r ∈ db, (r.id == toString nowMs) = false) :
    ∃ row, (postTask db p nowMs serverTime).resp = TasksPostResp.ok row ∧
      getTaskById (postTask db p nowMs serverTime).db row.id = some row ∧
      row.task_name = p.taskName ∧ row.employee_name = p.employeeName ∧
      row.employee_id = p.employeeId ∧ row.email = p.email ∧
      row.task_description = p.taskDescription ∧
      row.allocated_date = p.allocatedDate ∧ row.deadline = p.deadline ∧
      row.created_at = serverTime ∧
      (p.status.truthy = false → row.status = "assigned") := by
  have hstep := postTask_success_shape db p nowMs serverTime hreq hemail hid hfresh
  refine ⟨newTaskRow p nowMs serverTime, by rw [hstep], ?_, rfl, rfl, rfl, rfl, rfl,
    rfl, rfl, rfl, ?_⟩
  · rw [hstep]
    exact find_appended_task db (newTaskRow p nowMs serverTime) hfresh
  · intro h
    simp [newTaskRow, h]

/-- Claim C6, witness: the round trip at a concrete valid payload against
the empty store. -/
theorem task_roundtrip_witness :
    ∃ row, (postTask [] samplePayload 1700000000000 42).resp = TasksPostResp.ok row ∧
      getTaskById (postTask [] samplePayload 1700000000000 42).db row.id = some row ∧
      row.task_name = samplePayload.taskName ∧
      row.employee_name = samplePayload.employeeName ∧
      row.employee_id = samplePayload.employeeId ∧ row.email = samplePayload.email ∧
      row.task_description = samplePayload.taskDescription ∧
      row.allocated_date = samplePayload.allocatedDate ∧
      row.deadline = samplePayload.deadline ∧
      row.created_at = 42 ∧
      (samplePayload.status.truthy = false → row.status = "assigned") :=
  task_roundtrip [] samplePayload 1700000000000 42 (by decide) (by decide) (by decide)
    (by decide)

/-- Claim C7, counterexample: an empty-string employeeId query value does
not match the regex, yet GET /api/tasks answers 200 with the full,
unfiltered table instead of the claimed 400, because the handler's
`if (employeeId)` treats the falsy empty string as an absent filter. -/
theorem getTasksList_empty_filter_counterexample :
    empIdCreateOk "" = false ∧
    getTasksList [sampleTaskRow] (some "") = ListResp.ok [sampleTaskRow] ∧
    sampleTaskRow.employee_id ≠ "" :=
  ⟨by decide, rfl, by decide⟩

/-- Claim C7, amended: without a filter (or with a supplied but empty one,
which the handler treats as absent) GET /api/tasks returns all rows sorted
by created_at descending; a supplied non-empty filter failing
ATS0 validation yields the invalid-format 400, and a passing one yields
exactly the rows with that employee_id, sorted by created_at descending. -/
theorem getTasksList_spec (db : List TaskRow) (e : String) :
    (∃ l, getTasksList db none = ListResp.ok l ∧ List.Perm l db ∧
      l.Sorted createdDesc) ∧
    (getTasksList db (some "") = getTasksList db none) ∧
    (e.isEmpty = false → empIdCreateOk e = false →
      getTasksList db (some e) = ListResp.badRequest "Invalid employee ID format") ∧
    (e.isEmpty = false → empIdCreateOk e = true →
      ∃ l, getTasksList db (some e) = ListResp.ok l ∧
        List.Perm l (db.filter (fun r => r.employee_id == e)) ∧
        l.Sorted createdDesc) := by
  refine ⟨?_, rfl, ?_, ?_⟩
  · exact ⟨listTasksSorted db, rfl, List.perm_insertionSort createdDesc db,
      List.sorted_insertionSort createdDesc db⟩
  · intro he hid
    unfold getTasksList
    simp [he, hid]
  · intro he hid
    refine ⟨listTasksSorted (db.filter (fun r => r.employee_id == e)), ?_,
      List.perm_insertionSort createdDesc _, List.sorted_insertionSort createdDesc _⟩
    unfold getTasksList
    simp [he, hid]

/-- Claim C8: over a store whose history ids are unique, the file endpoint
answers 404 exactly when no row has the requested id or the row's blob is
NULL; and a valid no-file POST /api/task-history succeeds with has_file
false, after which fetching that record's file yields 404. -/
theorem history_file_not_found_spec :
    (∀ (db : List HistoryRow) (id : Nat),
      (∀ a ∈ db, ∀ b ∈ db, a.id = b.id → a = b) →
      (getHistoryFile db id = FileResp.notFound ↔
        (¬ ∃ r ∈ db, r.id = id) ∨ (∃ r ∈ db, r.id = id ∧ r.upload_doc = none))) ∧
    (∀ (db : List HistoryRow) (q : HistoryPayload) (nextId serverTime : Nat),
      (q.taskName.isEmpty || q.employeeName.isEmpty || q.employeeId.isEmpty ||
        q.email.isEmpty || q.description.isEmpty || q.taskStatus.isEmpty) = false →
      emailRegexTest q.email = true →
      empIdCreateOk q.employeeId = true →
      (∀ r ∈ db, (r.id == nextId) = false) →
      ∃ m, (postHistory db q none nextId serverTime).resp = HistPostResp.ok m ∧
        m.has_file = false ∧
        getHistoryFile (postHistory db q none nextId serverTime).db nextId =
          FileResp.notFound) := by
  constructor
  · intro db id huniq
    rcases hf : db.find? (fun r => r.id == id) with _ | r
    · have e : getHistoryFile db id = FileResp.notFound := by
        simp [getHistoryFile, hf]
      rw [List.find?_eq_none] at hf
      simp only [e, true_iff]
      left
      rintro ⟨r, hr, hid2⟩
      exact hf r hr (by simp [hid2])
    · have hrmem := List.mem_of_find?_eq_some hf
      have hrid : r.id = id := by
        have := List.find?_some hf
        simpa using this
      rcases hd : r.upload_doc with _ | buf
      · have e : getHistoryFile db id = FileResp.notFound := by
          simp [getHistoryFile, hf, hd]
        simp only [e, true_iff]
        right
        exact ⟨r, hrmem, hrid, hd⟩
      · have e : getHistoryFile db id = FileResp.ok buf (sniffContentType buf) := by
          simp [getHistoryFile, hf, hd]
        rw [e]
        constructor
        · intro hcontr
          cases hcontr
        · rintro (hno | ⟨r2, hr2, hid2, hdoc2⟩)
          · exact absurd ⟨r, hrmem, hrid⟩ hno
          · have hr2r : r2 = r := huniq r2 hr2 r hrmem (by rw [hid2, hrid])
            rw [hr2r, hd] at hdoc2
            cases hdoc2
  · intro db q nextId serverTime hreq hemail hid hfresh
    have hstep := postHistory_success_shape db q none nextId serverTime hreq hemail hid
    refine ⟨(newHistoryRow q none nextId serverTime).meta, by rw [hstep], rfl, ?_⟩
    rw [hstep]
    show getHistoryFile (db ++ [newHistoryRow q none nextId serverTime]) nextId =
      FileResp.notFound
    have hfind : (db ++ [newHistoryRow q none nextId serverTime]).find?
        (fun r => r.id == nextId) = some (newHistoryRow q none nextId serverTime) := by
      rw [List.find?_append]
      have hnone : db.find? (fun r => r.id == nextId) = none := by
        rw [List.find?_eq_none]
        intro x hx
        simp [hfresh x hx]
      rw [hnone]
      simp [List.find?, newHistoryRow]
    unfold getHistoryFile
    rw [hfind]
    rfl

/-- Claim C9: any POST /api/tasks or POST /api/task-history request that
fails a validation (missing field, bad email, bad employee id) gets a
structured 400 and leaves the stored rows exactly as they were. -/
theorem validation_rejects_before_insert (db : List TaskRow) (p : TaskPayload)
    (nowMs serverTime : Nat) (db2 : List HistoryRow) (q : HistoryPayload)
    (file : Option (List Nat)) (nextId serverTime2 : Nat) :
    (((p.taskName.isEmpty || p.employeeName.isEmpty || p.employeeId.isEmpty ||
        p.email.isEmpty || p.taskDescription.isEmpty || p.allocatedDate.isEmpty ||
        p.deadline.isEmpty) = true ∨
      emailRegexTest p.email = false ∨ empIdCreateOk p.employeeId = false) →
      (∃ msg, (postTask db p nowMs serverTime).resp = TasksPostResp.badRequest msg) ∧
        (postTask db p nowMs serverTime).db = db) ∧
    (((q.taskName.isEmpty || q.employeeName.isEmpty || q.employeeId.isEmpty ||
        q.email.isEmpty || q.description.isEmpty || q.taskStatus.isEmpty) = true ∨
      emailRegexTest q.email = false ∨ empIdCreateOk q.employeeId = false) →
      (∃ msg, (postHistory db2 q file nextId serverTime2).resp = HistPostResp.badRequest msg) ∧
        (postHistory db2 q file nextId serverTime2).db = db2) := by
  constructor
  · intro h
    cases h1 : (p.taskName.isEmpty || p.employeeName.isEmpty || p.employeeId.isEmpty ||
        p.email.isEmpty || p.taskDescription.isEmpty || p.allocatedDate.isEmpty ||
        p.deadline.isEmpty) with
    | true =>
      have e : postTask db p nowMs serverTime =
          ⟨TasksPostResp.badRequest "All fields are required", db⟩ := by
        unfold postTask
        simp [h1]
      exact ⟨⟨_, by rw [e]⟩, by rw [e]⟩
    | false =>
      cases h2 : emailRegexTest p.email with
      | false =>
        have e : postTask db p nowMs serverTime =
            ⟨TasksPostResp.badRequest "Invalid email format. Must be name@astrolitetech.com",
              db⟩ := by
          unfold postTask
          simp [h1, h2]
        exact ⟨⟨_, by rw [e]⟩, by rw [e]⟩
      | true =>
        cases h3 : empIdCreateOk p.employeeId with
        | false =>
          have e : postTask db p nowMs serverTime =
              ⟨TasksPostResp.badRequest "Invalid employee ID format", db⟩ := by
            unfold postTask
            simp [h1, h2, h3]
          exact ⟨⟨_, by rw [e]⟩, by rw [e]⟩
        | true =>
          rcases h with ha | hb | hc
          · rw [h1] at ha; cases ha
          · rw [h2] at hb; cases hb
          · rw [h3] at hc; cases hc
  · intro h
    cases h1 : (q.taskName.isEmpty || q.employeeName.isEmpty || q.employeeId.isEmpty ||
        q.email.isEmpty || q.description.isEmpty || q.taskStatus.isEmpty) with
    | true =>
      have e : postHistory db2 q file nextId serverTime2 =
          ⟨HistPostResp.badRequest "All fields are required", db2⟩ := by
        unfold postHistory
        simp [h1]
      exact ⟨⟨_, by rw [e]⟩, by rw [e]⟩
    | false =>
      cases h2 : emailRegexTest q.email with
      | false =>
        have e : postHistory db2 q file nextId serverTime2 =
            ⟨HistPostResp.badRequest "Invalid email format", db2⟩ := by
          unfold postHistory
          simp [h1, h2]
        exact ⟨⟨_, by rw [e]⟩, by rw [e]⟩
      | true =>
        cases h3 : empIdCreateOk q.employeeId with
        | false =>
          have e : postHistory db2 q file nextId serverTime2 =
              ⟨HistPostResp.badRequest "Invalid employee ID format", db2⟩ := by
            unfold postHistory
            simp [h1, h2, h3]
          exact ⟨⟨_, by rw [e]⟩, by rw [e]⟩
        | true =>
          rcases h with ha | hb | hc
          · rw [h1] at ha; cases ha
          · rw [h2] at hb; cases hb
          · rw [h3] at hc; cases hc

/-- Claim C10: when a valid POST /api/tasks body carries a falsy status
value, the inserted row's status is the default string assigned, never the
supplied falsy value. -/
theorem status_falsy_defaults_assigned (db : List TaskRow) (p : TaskPayload)
    (nowMs serverTime : Nat)
    (hreq : (p.taskName.isEmpty || p.employeeName.isEmpty || p.employeeId.isEmpty ||
      p.email.isEmpty || p.taskDescription.isEmpty || p.allocatedDate.isEmpty ||
      p.deadline.isEmpty) = false)
    (hemail : emailRegexTest p.email = true)
    (hid : empIdCreateOk p.employeeId = true)
    (hfresh : ∀ r ∈ db, (r.id == toString nowMs) = false)
    (hfalsy : p.status.truthy = false) :
    ∃ row, (postTask db p nowMs serverTime).resp = TasksPostResp.ok row ∧
      row.status = "assigned" ∧
      (postTask db p nowMs serverTime).db = db ++ [row] := by
  have hstep := postTask_success_shape db p nowMs serverTime hreq hemail hid hfresh
  exact ⟨newTaskRow p nowMs serverTime, by rw [hstep], by simp [newTaskRow, hfalsy],
    by rw [hstep]⟩

/-- Claim C10, witness: the three falsy shapes the claim names (empty
string, 0, null) each yield a stored status of assigned. -/
theorem status_falsy_defaults_assigned_witness :
    (∃ row, (postTask [] { samplePayload with status := JsVal.str "" } 1 2).resp =
        TasksPostResp.ok row ∧ row.status = "assigned" ∧
      (postTask [] { samplePayload with status := JsVal.str "" } 1 2).db = [] ++ [row]) ∧
    (∃ row, (postTask [] { samplePayload with status := JsVal.num 0 } 1 2).resp =
        TasksPostResp.ok row ∧ row.status = "assigned" ∧
      (postTask [] { samplePayload with status := JsVal.num 0 } 1 2).db = [] ++ [row]) ∧
    (∃ row, (postTask [] { samplePayload with status := JsVal.null } 1 2).resp =
        TasksPostResp.ok row ∧ row.status = "assigned" ∧
      (postTask [] { samplePayload with status := JsVal.null } 1 2).db = [] ++ [row]) :=
  ⟨status_falsy_defaults_assigned [] { samplePayload with status := JsVal.str "" } 1 2
      (by decide) (by decide) (by decide) (by decide) (by decide),
    status_falsy_defaults_assigned [] { samplePayload with status := JsVal.num 0 } 1 2
      (by decide) (by decide) (by decide) (by decide) (by decide),
    status_falsy_defaults_assigned [] { samplePayload with status := JsVal.null } 1 2
      (by decide) (by decide) (by decide) (by decide) (by decide)⟩

end TodoTask
